import Mathlib

/-!
Verification of the bidding agents of the repository (rscbb.py, rscbudget.py):
a balanced-bidding agent and a budget-pacing agent for a repeated
generalized-second-price auction.  Bid amounts, values and reserve prices are
modelled as rationals; the oscillating click-through baseline
round(30 * cos(pi * t / 24) + 50) is modelled over the reals.  Fallible
operations (missing history round, indexing errors, target selection over an
empty list) are modelled with Option.
-/

/-- An agent as constructed in both source files: identity, private per-click
value, and budget. -/
structure Agent where
  id : ℤ
  value : ℚ
  budget : ℚ

/-- One recorded auction round: the list of (agent id, bid amount) pairs and
the per-slot click counts. -/
structure AuctionRound where
  bids : List (ℤ × ℚ)
  clicks : List ℕ

/-- A history is the ordered sequence of completed rounds, round 0 first. -/
abbrev History := List AuctionRound

/-- Modelled from the spec: the external auction engine's
History.round(k), which "returns an immutable Round for k ≥ 0, or a failure
if k is out of range" (the history class is not part of the repository's two
source files). -/
def History.round (h : History) (k : ℤ) : Option AuctionRound :=
  if 0 ≤ k then h.get? k.toNat else none

/-- The type of the externally supplied GSP primitive
GSP.bid_range_for_slot(slot, clicks, reserve, other_bids), kept as a
parameter of the embedding: the repository delegates to it and its code is
not part of the repository. -/
abbrev BidRangePrim := ℕ → List ℕ → ℚ → List (ℤ × ℚ) → ℚ × Option ℚ

/-- Modelled from the spec: util.argmax_index (the util module is not part of
the repository's two source files); per the spec it returns "the index of its
maximum value (first occurrence on ties)" and target selection over an empty
list must fail fast, so the empty list yields none. -/
def argmax_index : List ℚ → Option ℕ
  | [] => none
  | x :: rest =>
    match argmax_index rest with
    | none => some 0
    | some j => if x < rest.getD j 0 then some (j + 1) else some 0

/-- Comparison used for Python's sorted(other_bids, reverse=True,
key=lambda x: x[1]): descending by bid amount.  Python's sort is stable, as
is insertion sort with this relation, so the results coincide. -/
def byBidDesc (x y : ℤ × ℚ) : Prop := y.2 ≤ x.2

instance : DecidableRel byBidDesc := fun x y =>
  inferInstanceAs (Decidable (y.2 ≤ x.2))

instance : IsTotal (ℤ × ℚ) byBidDesc := ⟨fun a b => le_total b.2 a.2⟩

instance : IsTrans (ℤ × ℚ) byBidDesc := ⟨fun _ _ _ h1 h2 => le_trans h2 h1⟩

/-- Comparison used for Python's sorted(other_bids, reverse=False,
key=lambda x: x[1]): ascending by bid amount. -/
def byBidAsc (x y : ℤ × ℚ) : Prop := x.2 ≤ y.2

instance : DecidableRel byBidAsc := fun x y =>
  inferInstanceAs (Decidable (x.2 ≤ y.2))

instance : IsTotal (ℤ × ℚ) byBidAsc := ⟨fun a b => le_total a.2 b.2⟩

instance : IsTrans (ℤ × ℚ) byBidAsc := ⟨fun _ _ _ h1 h2 => le_trans h1 h2⟩

/-- The local c_1_t of __compute_position_effects in both source files:
round(30 * math.cos(math.pi * t / 24) + 50). -/
noncomputable def c_1_t (t : ℤ) : ℤ :=
  round ((30 : ℝ) * Real.cos (Real.pi * t / 24) + 50)

namespace rscbb

/-- rscbb.__compute_position_effects(t, n_positions):
[c_1_t * (.75 ** j) for j in range(n_positions)]. -/
noncomputable def compute_position_effects (t : ℤ) (n_positions : ℕ) : List ℚ :=
  (List.range n_positions).map fun j => (c_1_t t : ℚ) * (3 / 4) ^ j

/-- rscbb.slot_info(t, history, reserve): for each slot s of the previous
round, (s, min_bid, max_bid) from the external GSP primitive, with a missing
max replaced by 2 * min. -/
def slot_info (a : Agent) (brfs : BidRangePrim) (t : ℤ) (h : History)
    (reserve : ℚ) : Option (List (ℕ × ℚ × ℚ)) :=
  (History.round h (t - 1)).map fun prev_round =>
    let other_bids := prev_round.bids.filter fun bt => decide (bt.1 ≠ a.id)
    let clicks := prev_round.clicks
    (List.range clicks.length).map fun s =>
      let mm := brfs s clicks reserve other_bids
      (s, mm.1, mm.2.getD (2 * mm.1))

/-- rscbb.expected_utils(t, history, reserve): utilities
[position_effects[i] * (value - prices[i]) for i in range(len(prices))],
where prices are the competitor bids of round t-1 sorted descending. -/
noncomputable def expected_utils (a : Agent) (t : ℤ) (h : History)
    (_reserve : ℚ) : Option (List ℚ) :=
  (History.round h (t - 1)).map fun prev_round =>
    let other_bids := prev_round.bids.filter fun bt => decide (bt.1 ≠ a.id)
    let ranked_bids := List.insertionSort byBidDesc other_bids
    let prices := ranked_bids.map Prod.snd
    let position_effects := compute_position_effects t prices.length
    (List.range prices.length).map fun i =>
      position_effects.getD i 0 * (a.value - prices.getD i 0)

/-- rscbb.target_slot(t, history, reserve): the slot_info entry at the
argmax of the expected utilities; an out-of-range lookup fails. -/
noncomputable def target_slot (a : Agent) (brfs : BidRangePrim) (t : ℤ)
    (h : History) (reserve : ℚ) : Option (ℕ × ℚ × ℚ) :=
  match expected_utils a t h reserve with
  | none => none
  | some us =>
    match argmax_index us with
    | none => none
    | some i =>
      match slot_info a brfs t h reserve with
      | none => none
      | some info => info.get? i

/-- rscbb.bid(t, history, reserve): balanced bidding.  Bid value when not
expecting to win (min_bid > value) or when targeting the top slot; otherwise
bid value - (pos[slot] / pos[slot-1]) * (value - min_bid). -/
noncomputable def bid (a : Agent) (brfs : BidRangePrim) (t : ℤ) (h : History)
    (reserve : ℚ) : Option ℚ :=
  match History.round h (t - 1) with
  | none => none
  | some _prev_round =>
    match target_slot a brfs t h reserve with
    | none => none
    | some (slot, min_bid, _max_bid) =>
      if min_bid > a.value then some a.value
      else if 0 < slot then
        let pos := compute_position_effects t (slot + 1)
        some (a.value - (pos.getD slot 0 / pos.getD (slot - 1) 0) *
          (a.value - min_bid))
      else some a.value

end rscbb

namespace rscbudget

/-- rscbudget.__compute_position_effects(t, n_positions): identical to the
rscbb version. -/
noncomputable def compute_position_effects (t : ℤ) (n_positions : ℕ) : List ℚ :=
  (List.range n_positions).map fun j => (c_1_t t : ℚ) * (3 / 4) ^ j

/-- rscbudget.slot_info(t, history, reserve): identical to the rscbb
version. -/
def slot_info (a : Agent) (brfs : BidRangePrim) (t : ℤ) (h : History)
    (reserve : ℚ) : Option (List (ℕ × ℚ × ℚ)) :=
  (History.round h (t - 1)).map fun prev_round =>
    let other_bids := prev_round.bids.filter fun bt => decide (bt.1 ≠ a.id)
    let clicks := prev_round.clicks
    (List.range clicks.length).map fun s =>
      let mm := brfs s clicks reserve other_bids
      (s, mm.1, mm.2.getD (2 * mm.1))

/-- rscbudget.expected_utils(t, history, reserve): identical to the rscbb
version. -/
noncomputable def expected_utils (a : Agent) (t : ℤ) (h : History)
    (_reserve : ℚ) : Option (List ℚ) :=
  (History.round h (t - 1)).map fun prev_round =>
    let other_bids := prev_round.bids.filter fun bt => decide (bt.1 ≠ a.id)
    let ranked_bids := List.insertionSort byBidDesc other_bids
    let prices := ranked_bids.map Prod.snd
    let position_effects := compute_position_effects t prices.length
    (List.range prices.length).map fun i =>
      position_effects.getD i 0 * (a.value - prices.getD i 0)

/-- rscbudget.target_slot(t, history, reserve): identical to the rscbb
version. -/
noncomputable def target_slot (a : Agent) (brfs : BidRangePrim) (t : ℤ)
    (h : History) (reserve : ℚ) : Option (ℕ × ℚ × ℚ) :=
  match expected_utils a t h reserve with
  | none => none
  | some us =>
    match argmax_index us with
    | none => none
    | some i =>
      match slot_info a brfs t h reserve with
      | none => none
      | some info => info.get? i

/-- The constant alpha = 40 of rscbudget.bid. -/
def alpha : ℚ := 40

/-- The constant epsilon = 10 of rscbudget.bid. -/
def epsilon : ℚ := 10

/-- The optimal-index scan of rscbudget.bid: the for-loop over the
ascending sorted competitor bids, where a later qualifying index overwrites
an earlier one.  The last entry qualifies if its bid exceeds alpha; any other
entry qualifies if its bid exceeds alpha and the next entry's bid is below
alpha * 2. -/
def optimal_index (sorted_bids : List (ℤ × ℚ)) : Option ℕ :=
  (List.range sorted_bids.length).foldl
    (fun acc i =>
      if i = sorted_bids.length - 1 then
        if alpha < (sorted_bids.getD i (0, 0)).2 then some i else acc
      else if alpha < (sorted_bids.getD i (0, 0)).2 ∧
          (sorted_bids.getD (i + 1) (0, 0)).2 < alpha * 2 then some i
      else acc)
    none

/-- The bid-selection tail of rscbudget.bid, after the target slot has been
obtained: during cool-down (12 < t < 35) bid epsilon; otherwise scan for the
optimal index and bid above the top competitor (no index), epsilon above the
lowest competitor (index 0), or the midpoint of the optimal entry and the
next-lower entry. -/
def pace_bid (t : ℤ) (sorted_bids : List (ℤ × ℚ)) : Option ℚ :=
  if 12 < t ∧ t < 35 then some epsilon
  else
    match optimal_index sorted_bids with
    | none => (sorted_bids.getLast?).map fun bt => bt.2 + epsilon
    | some 0 => some ((sorted_bids.getD 0 (0, 0)).2 + epsilon)
    | some (i + 1) =>
      some (((sorted_bids.getD (i + 1) (0, 0)).2 +
        (sorted_bids.getD i (0, 0)).2) / 2)

/-- rscbudget.bid(t, history, reserve): reads round t-1, computes the target
slot (whose value is not used further), sorts the competitor bids ascending,
and applies the pacing policy. -/
noncomputable def bid (a : Agent) (brfs : BidRangePrim) (t : ℤ) (h : History)
    (reserve : ℚ) : Option ℚ :=
  match History.round h (t - 1) with
  | none => none
  | some prev_round =>
    match target_slot a brfs t h reserve with
    | none => none
    | some _ =>
      let other_bids := prev_round.bids.filter fun bt => decide (bt.1 ≠ a.id)
      let sorted_bids := List.insertionSort byBidAsc other_bids
      pace_bid t sorted_bids

end rscbudget

/-! Concrete fixtures used by witnesses and counterexamples.  All scenarios
are placed at rounds whose click baseline has an exactly provable value
(c_1_t 12 = 50, c_1_t 24 = 20, c_1_t 1 = 80). -/

/-- A bidding agent with id 0, value 100, budget 500. -/
def agentA : Agent := ⟨0, 100, 500⟩

/-- A padding round used to fill histories up to the round of interest. -/
def padRound : AuctionRound := ⟨[], []⟩

/-- A GSP bid-range primitive that always reports min bid 100 with no upper
bound. -/
def prim100 : BidRangePrim := fun _ _ _ _ => (100, none)

/-- A GSP bid-range primitive that always reports min bid 60 with no upper
bound. -/
def prim60 : BidRangePrim := fun _ _ _ _ => (60, none)

/-- A GSP bid-range primitive that always reports min bid 50 with no upper
bound. -/
def prim50 : BidRangePrim := fun _ _ _ _ => (50, none)

/-- A 12-round history whose round 11 has competitor bids 100 and 40 and two
slots. -/
def hist12a : History :=
  List.replicate 11 padRound ++ [⟨[(1, 100), (2, 40)], [10, 5]⟩]

/-- A 12-round history whose round 11 has competitor bids 100 and 40 but a
single slot (fewer slots than competitors). -/
def hist12b : History :=
  List.replicate 11 padRound ++ [⟨[(1, 100), (2, 40)], [10]⟩]

/-- A 12-round history whose round 11 has a single competitor bid 50 and a
single slot. -/
def hist12c : History :=
  List.replicate 11 padRound ++ [⟨[(1, 50)], [10]⟩]

/-- A 24-round history whose round 23 has a single competitor bid 50 and a
single slot. -/
def hist24 : History :=
  List.replicate 23 padRound ++ [⟨[(1, 50)], [10]⟩]

/-- A one-round history whose round 0 has ascending competitor bids 30, 45,
90 and three slots. -/
def hist1 : History := [⟨[(1, 30), (2, 45), (3, 90)], [10, 5, 1]⟩]

/-- A one-round history whose round 0 contains only the agent's own bid, so
the competitor set is empty. -/
def hist0 : History := [⟨[(0, 55)], [10]⟩]


/-! Helper lemmas about the click baseline c_1_t. -/

theorem c_1_t_bounds (t : ℤ) : 20 ≤ c_1_t t ∧ c_1_t t ≤ 80 := by
  have h1 : Real.cos (Real.pi * t / 24) ≤ 1 := Real.cos_le_one _
  have h2 : -1 ≤ Real.cos (Real.pi * t / 24) := Real.neg_one_le_cos _
  unfold c_1_t
  rw [round_eq]
  constructor
  · refine Int.le_floor.mpr ?_
    push_cast
    linarith
  · have h81 : (30 : ℝ) * Real.cos (Real.pi * t / 24) + 50 + 1 / 2 <
        ((81 : ℤ) : ℝ) := by push_cast; linarith
    have := Int.floor_lt.mpr h81
    omega

theorem c_1_t_pos (t : ℤ) : 0 < c_1_t t := by
  have := (c_1_t_bounds t).1
  omega

theorem c_1_t_twelve : c_1_t 12 = 50 := by
  have h : Real.pi * ((12 : ℤ) : ℝ) / 24 = Real.pi / 2 := by push_cast; ring
  unfold c_1_t
  rw [h, Real.cos_pi_div_two]
  norm_num

theorem c_1_t_twentyfour : c_1_t 24 = 20 := by
  have h : Real.pi * ((24 : ℤ) : ℝ) / 24 = Real.pi := by push_cast; ring
  unfold c_1_t
  rw [h, Real.cos_pi]
  norm_num

theorem c_1_t_one : c_1_t 1 = 80 := by
  have hpi : Real.pi * ((1 : ℤ) : ℝ) / 24 = Real.pi / 24 := by push_cast; ring
  have h0 : (0 : ℝ) ≤ Real.pi / 24 := by positivity
  have hub : Real.pi / 24 ≤ 0.14 := by
    have h315 : Real.pi < 3.15 := Real.pi_lt_d2
    norm_num at h315 ⊢
    linarith
  have hcos1 : Real.cos (Real.pi / 24) ≤ 1 := Real.cos_le_one _
  have hcos2 : 1 - (Real.pi / 24) ^ 2 / 2 ≤ Real.cos (Real.pi / 24) :=
    Real.one_sub_sq_div_two_le_cos
  have hsq : (Real.pi / 24) ^ 2 ≤ (0.14 : ℝ) ^ 2 := by nlinarith
  unfold c_1_t
  rw [hpi, round_eq]
  have h80 : ((80 : ℤ) : ℝ) ≤ 30 * Real.cos (Real.pi / 24) + 50 + 1 / 2 := by
    push_cast
    nlinarith
  have h81 : 30 * Real.cos (Real.pi / 24) + 50 + 1 / 2 < ((81 : ℤ) : ℝ) := by
    push_cast
    nlinarith
  have hlo := Int.le_floor.mpr h80
  have hhi := Int.floor_lt.mpr h81
  omega

/-! Helper lemmas about argmax_index. -/

theorem argmax_index_nil : argmax_index [] = none := rfl

theorem argmax_index_singleton (x : ℚ) : argmax_index [x] = some 0 := rfl

theorem argmax_index_eq_none {xs : List ℚ} :
    argmax_index xs = none ↔ xs = [] := by
  cases xs with
  | nil => simp [argmax_index]
  | cons x rest =>
    constructor
    · intro hc
      exfalso
      simp only [argmax_index] at hc
      cases hr : argmax_index rest with
      | none =>
        rw [hr] at hc
        simp at hc
      | some j =>
        rw [hr] at hc
        simp only [List.getD_eq_getElem?_getD] at hc
        by_cases hx : x < rest[j]?.getD 0
        · rw [if_pos hx] at hc
          simp at hc
        · rw [if_neg hx] at hc
          simp at hc
    · intro hc
      simp at hc

theorem argmax_index_lt_length {xs : List ℚ} {i : ℕ}
    (h : argmax_index xs = some i) : i < xs.length := by
  induction xs generalizing i with
  | nil => simp [argmax_index] at h
  | cons x rest ih =>
    simp only [argmax_index] at h
    cases hr : argmax_index rest with
    | none =>
      rw [hr] at h
      simp only [Option.some.injEq] at h
      simp [← h]
    | some j =>
      rw [hr] at h
      simp only [List.getD_eq_getElem?_getD] at h
      have hj := ih hr
      by_cases hx : x < rest[j]?.getD 0
      · rw [if_pos hx] at h
        simp only [Option.some.injEq] at h
        simp only [List.length_cons]
        omega
      · rw [if_neg hx] at h
        simp only [Option.some.injEq] at h
        simp [← h]

theorem argmax_index_is_max {xs : List ℚ} {i : ℕ}
    (h : argmax_index xs = some i) :
    ∀ j, j < xs.length → xs.getD j 0 ≤ xs.getD i 0 := by
  simp only [List.getD_eq_getElem?_getD]
  induction xs generalizing i with
  | nil => simp [argmax_index] at h
  | cons x rest ih =>
    simp only [argmax_index] at h
    cases hr : argmax_index rest with
    | none =>
      rw [hr] at h
      simp only [Option.some.injEq] at h
      have hnil : rest = [] := argmax_index_eq_none.mp hr
      subst hnil
      intro j hj
      have hj0 : j = 0 := by simpa using hj
      subst hj0
      simp [← h]
    | some j0 =>
      rw [hr] at h
      simp only [List.getD_eq_getElem?_getD] at h
      have hmax := ih hr
      by_cases hx : x < rest[j0]?.getD 0
      · rw [if_pos hx] at h
        simp only [Option.some.injEq] at h
        intro j hj
        cases j with
        | zero =>
          simp only [← h, List.getElem?_cons_succ, List.getElem?_cons_zero,
            Option.getD_some]
          exact le_of_lt hx
        | succ j' =>
          simp only [List.length_cons] at hj
          have hj' : j' < rest.length := by omega
          have := hmax j' hj'
          simp only [← h, List.getElem?_cons_succ]
          exact this
      · rw [if_neg hx] at h
        simp only [Option.some.injEq] at h
        push_neg at hx
        intro j hj
        cases j with
        | zero => simp [← h]
        | succ j' =>
          simp only [List.length_cons] at hj
          have hj' : j' < rest.length := by omega
          have := hmax j' hj'
          simp only [← h, List.getElem?_cons_succ, List.getElem?_cons_zero,
            Option.getD_some]
          exact le_trans this hx

theorem argmax_index_first {xs : List ℚ} {i : ℕ}
    (h : argmax_index xs = some i) :
    ∀ j, j < i → xs.getD j 0 < xs.getD i 0 := by
  simp only [List.getD_eq_getElem?_getD]
  induction xs generalizing i with
  | nil => simp [argmax_index] at h
  | cons x rest ih =>
    simp only [argmax_index] at h
    cases hr : argmax_index rest with
    | none =>
      rw [hr] at h
      simp only [Option.some.injEq] at h
      intro j hj
      omega
    | some j0 =>
      rw [hr] at h
      simp only [List.getD_eq_getElem?_getD] at h
      have hfirst := ih hr
      by_cases hx : x < rest[j0]?.getD 0
      · rw [if_pos hx] at h
        simp only [Option.some.injEq] at h
        intro j hj
        cases j with
        | zero =>
          simp only [← h, List.getElem?_cons_succ, List.getElem?_cons_zero,
            Option.getD_some]
          exact hx
        | succ j' =>
          have hj' : j' < j0 := by omega
          have := hfirst j' hj'
          simp only [← h, List.getElem?_cons_succ]
          exact this
      · rw [if_neg hx] at h
        simp only [Option.some.injEq] at h
        intro j hj
        omega

/-! Helper lemmas about the position-effect sequences. -/

theorem rscbb.compute_position_effects_length (t : ℤ) (n : ℕ) :
    (rscbb.compute_position_effects t n).length = n := by
  simp [rscbb.compute_position_effects]

theorem rscbb.compute_position_effects_getD (t : ℤ) {n j : ℕ} (hj : j < n) :
    (rscbb.compute_position_effects t n).getD j 0 =
      (c_1_t t : ℚ) * (3 / 4) ^ j := by
  have hlen : j < (rscbb.compute_position_effects t n).length := by
    simpa [rscbb.compute_position_effects_length] using hj
  rw [List.getD_eq_getElem _ _ hlen]
  simp [rscbb.compute_position_effects]

theorem rscbb.compute_position_effects_getElem (t : ℤ) {n j : ℕ}
    (hj : j < n) :
    (rscbb.compute_position_effects t n)[j]?.getD 0 =
      (c_1_t t : ℚ) * (3 / 4) ^ j := by
  rw [← List.getD_eq_getElem?_getD]
  exact rscbb.compute_position_effects_getD t hj

theorem rscbb.compute_position_effects_getD_pos (t : ℤ) {n j : ℕ}
    (hj : j < n) : 0 < (rscbb.compute_position_effects t n).getD j 0 := by
  rw [rscbb.compute_position_effects_getD t hj]
  have hc := c_1_t_pos t
  positivity

theorem hist12a_round : History.round hist12a 11 =
    some ⟨[(1, 100), (2, 40)], [10, 5]⟩ := by
  simp [History.round, hist12a, List.getElem?_append_right]

theorem hist12b_round : History.round hist12b 11 =
    some ⟨[(1, 100), (2, 40)], [10]⟩ := by
  simp [History.round, hist12b, List.getElem?_append_right]

theorem hist12c_round : History.round hist12c 11 =
    some ⟨[(1, 50)], [10]⟩ := by
  simp [History.round, hist12c, List.getElem?_append_right]

theorem hist24_round : History.round hist24 23 =
    some ⟨[(1, 50)], [10]⟩ := by
  simp [History.round, hist24, List.getElem?_append_right]

theorem hist1_round : History.round hist1 0 =
    some ⟨[(1, 30), (2, 45), (3, 90)], [10, 5, 1]⟩ := by
  simp [History.round, hist1]

theorem eval_eu12a : rscbb.expected_utils agentA 12 hist12a 0 =
    some [0, 2250] := by
  simp [rscbb.expected_utils, hist12a_round, agentA, List.insertionSort,
    List.orderedInsert, byBidDesc, rscbb.compute_position_effects,
    c_1_t_twelve, List.range_succ]
  norm_num

theorem eval_eu12b : rscbb.expected_utils agentA 12 hist12b 0 =
    some [0, 2250] := by
  simp [rscbb.expected_utils, hist12b_round, agentA, List.insertionSort,
    List.orderedInsert, byBidDesc, rscbb.compute_position_effects,
    c_1_t_twelve, List.range_succ]
  norm_num

theorem eval_eu12c : rscbb.expected_utils agentA 12 hist12c 0 =
    some [2500] := by
  simp [rscbb.expected_utils, hist12c_round, agentA, List.insertionSort,
    List.orderedInsert, byBidDesc, rscbb.compute_position_effects,
    c_1_t_twelve, List.range_succ]
  norm_num

theorem eval_amax2 : argmax_index [0, 2250] = some 1 := by
  simp [argmax_index]

theorem eval_si12a100 : rscbb.slot_info agentA prim100 12 hist12a 0 =
    some [(0, 100, 200), (1, 100, 200)] := by
  simp [rscbb.slot_info, hist12a_round, agentA, prim100, List.range_succ]
  norm_num

theorem eval_si12a60 : rscbb.slot_info agentA prim60 12 hist12a 0 =
    some [(0, 60, 120), (1, 60, 120)] := by
  simp [rscbb.slot_info, hist12a_round, agentA, prim60, List.range_succ]
  norm_num

theorem eval_si12b100 : rscbb.slot_info agentA prim100 12 hist12b 0 =
    some [(0, 100, 200)] := by
  simp [rscbb.slot_info, hist12b_round, agentA, prim100, List.range_succ]
  norm_num

theorem eval_si12c50 : rscbb.slot_info agentA prim50 12 hist12c 0 =
    some [(0, 50, 100)] := by
  simp [rscbb.slot_info, hist12c_round, agentA, prim50, List.range_succ]
  norm_num

theorem eval_ts12a100 : rscbb.target_slot agentA prim100 12 hist12a 0 =
    some (1, 100, 200) := by
  simp [rscbb.target_slot, eval_eu12a, eval_amax2, eval_si12a100]

theorem eval_ts12a60 : rscbb.target_slot agentA prim60 12 hist12a 0 =
    some (1, 60, 120) := by
  simp [rscbb.target_slot, eval_eu12a, eval_amax2, eval_si12a60]

theorem eval_ts12c50 : rscbb.target_slot agentA prim50 12 hist12c 0 =
    some (0, 50, 100) := by
  simp [rscbb.target_slot, eval_eu12c, argmax_index_singleton, eval_si12c50]

theorem eval_bid12a100 : rscbb.bid agentA prim100 12 hist12a 0 = some 100 := by
  rw [rscbb.bid]
  rw [show (12 : ℤ) - 1 = 11 by norm_num, hist12a_round, eval_ts12a100]
  simp [agentA, rscbb.compute_position_effects_getD, c_1_t_twelve]

theorem eval_bid12a60 : rscbb.bid agentA prim60 12 hist12a 0 = some 70 := by
  rw [rscbb.bid]
  rw [show (12 : ℤ) - 1 = 11 by norm_num, hist12a_round, eval_ts12a60]
  simp [agentA, rscbb.compute_position_effects_getD,
    rscbb.compute_position_effects_getElem, c_1_t_twelve]
  norm_num

theorem eval_bid12c50 : rscbb.bid agentA prim50 12 hist12c 0 = some 100 := by
  rw [rscbb.bid]
  rw [show (12 : ℤ) - 1 = 11 by norm_num, hist12c_round, eval_ts12c50]
  simp [agentA]

theorem eval_eu24 : rscbudget.expected_utils agentA 24 hist24 0 =
    some [1000] := by
  simp [rscbudget.expected_utils, hist24_round, agentA, List.insertionSort,
    List.orderedInsert, byBidDesc, rscbudget.compute_position_effects,
    c_1_t_twentyfour, List.range_succ]
  norm_num

theorem eval_si24 : rscbudget.slot_info agentA prim50 24 hist24 0 =
    some [(0, 50, 100)] := by
  simp [rscbudget.slot_info, hist24_round, agentA, prim50, List.range_succ]
  norm_num

theorem eval_ts24 : rscbudget.target_slot agentA prim50 24 hist24 0 =
    some (0, 50, 100) := by
  simp [rscbudget.target_slot, eval_eu24, argmax_index_singleton, eval_si24]

theorem eval_budgetbid24 : rscbudget.bid agentA prim50 24 hist24 0 =
    some 10 := by
  rw [rscbudget.bid]
  rw [show (24 : ℤ) - 1 = 23 by norm_num, hist24_round, eval_ts24]
  simp [rscbudget.pace_bid, rscbudget.epsilon]

theorem eval_eu1 : rscbudget.expected_utils agentA 1 hist1 0 =
    some [800, 3300, 3150] := by
  simp [rscbudget.expected_utils, hist1_round, agentA, List.insertionSort,
    List.orderedInsert, byBidDesc, rscbudget.compute_position_effects,
    c_1_t_one, List.range_succ]
  norm_num

theorem eval_amax3 : argmax_index [800, 3300, 3150] = some 1 := by
  simp [argmax_index]
  norm_num

theorem eval_si1 : rscbudget.slot_info agentA prim50 1 hist1 0 =
    some [(0, 50, 100), (1, 50, 100), (2, 50, 100)] := by
  simp [rscbudget.slot_info, hist1_round, agentA, prim50, List.range_succ]
  norm_num

theorem eval_ts1 : rscbudget.target_slot agentA prim50 1 hist1 0 =
    some (1, 50, 100) := by
  simp [rscbudget.target_slot, eval_eu1, eval_amax3, eval_si1]

theorem eval_opt1 :
    rscbudget.optimal_index [(1, 30), (2, 45), (3, 90)] = some 2 := by
  simp [rscbudget.optimal_index, rscbudget.alpha, List.range_succ]
  norm_num

theorem eval_budgetbid1 : rscbudget.bid agentA prim50 1 hist1 0 =
    some (135 / 2) := by
  rw [rscbudget.bid]
  rw [show (1 : ℤ) - 1 = 0 by norm_num, hist1_round, eval_ts1]
  simp [agentA, List.insertionSort, List.orderedInsert, byBidAsc,
    rscbudget.pace_bid, eval_opt1, rscbudget.epsilon]
  norm_num [eval_opt1]

/-- C10: the shared machinery duplicated across the two policy files is
extensionally equal: for identical agent parameters and inputs, rscbb and
rscbudget compute identical slot_info, expected_utils, position-effect
sequences and target_slot. -/
theorem claim10_shared_machinery_equal (a : Agent) (brfs : BidRangePrim)
    (t : ℤ) (h : History) (reserve : ℚ) (n : ℕ) :
    rscbb.slot_info a brfs t h reserve = rscbudget.slot_info a brfs t h reserve ∧
    rscbb.expected_utils a t h reserve = rscbudget.expected_utils a t h reserve ∧
    rscbb.compute_position_effects t n = rscbudget.compute_position_effects t n ∧
    rscbb.target_slot a brfs t h reserve = rscbudget.target_slot a brfs t h reserve :=
  ⟨rfl, rfl, rfl, rfl⟩

/-- C7: for every round t and every length n, the position-effect sequence
[c_1_t(t) * 0.75 ^ j for j in range n] is strictly decreasing at every valid
index, given that the base click rate c_1_t(t) is positive. -/
theorem claim7_position_effects_strict_decreasing (t : ℤ) (n j : ℕ)
    (hj : j + 1 < n) (hc : 0 < c_1_t t) :
    (rscbb.compute_position_effects t n).getD (j + 1) 0 <
      (rscbb.compute_position_effects t n).getD j 0 := by
  rw [rscbb.compute_position_effects_getD t hj,
    rscbb.compute_position_effects_getD t (by omega)]
  have hcq : (0 : ℚ) < (c_1_t t : ℚ) := by exact_mod_cast hc
  have hp : (0 : ℚ) < (3 / 4 : ℚ) ^ j := by positivity
  rw [pow_succ]
  nlinarith

theorem claim7_witness :
    (0 + 1 < 2 ∧ 0 < c_1_t 12) ∧
      (rscbb.compute_position_effects 12 2).getD (0 + 1) 0 <
        (rscbb.compute_position_effects 12 2).getD 0 0 :=
  ⟨⟨by norm_num, by rw [c_1_t_twelve]; norm_num⟩,
    claim7_position_effects_strict_decreasing 12 2 0 (by norm_num)
      (by rw [c_1_t_twelve]; norm_num)⟩

/-- C9: in the balanced-bidding division branch the divisor
pos[slot - 1] = c_1_t(t) * 0.75 ^ (slot - 1) is nonzero for every integer
round t, because the rounded base click rate always lies in [20, 80]; the
degenerate-formula error case is unreachable. -/
theorem claim9_divisor_nonzero (t : ℤ) (slot : ℕ) (hs : 0 < slot) :
    (20 ≤ c_1_t t ∧ c_1_t t ≤ 80) ∧
      (rscbb.compute_position_effects t (slot + 1)).getD (slot - 1) 0 ≠ 0 := by
  refine ⟨c_1_t_bounds t, ?_⟩
  have hpos := @rscbb.compute_position_effects_getD_pos t (slot + 1) (slot - 1)
    (by omega)
  exact ne_of_gt hpos

theorem claim9_witness :
    0 < 1 ∧ ((20 ≤ c_1_t 7 ∧ c_1_t 7 ≤ 80) ∧
      (rscbb.compute_position_effects 7 (1 + 1)).getD (1 - 1) 0 ≠ 0) :=
  ⟨by norm_num, claim9_divisor_nonzero 7 1 (by norm_num)⟩

/-- C2: the balanced-bidding bid returns exactly the agent's value in both
boundary branches: when the targeted slot's min bid exceeds the value, and
when the targeted slot is slot 0 with min bid at most the value. -/
theorem claim2_boundary_branches_bid_value (a : Agent) (brfs : BidRangePrim)
    (t : ℤ) (h : History) (reserve : ℚ) (slot : ℕ) (min_bid max_bid b : ℚ)
    (htgt : rscbb.target_slot a brfs t h reserve = some (slot, min_bid, max_bid))
    (hb : rscbb.bid a brfs t h reserve = some b)
    (hcase : a.value < min_bid ∨ (slot = 0 ∧ min_bid ≤ a.value)) :
    b = a.value := by
  rw [rscbb.bid] at hb
  cases hr : History.round h (t - 1) with
  | none => rw [hr] at hb; simp at hb
  | some prev =>
    rw [hr, htgt] at hb
    rcases hcase with hgt | ⟨hs0, hle⟩
    · simp only [if_pos hgt] at hb
      exact (Option.some.inj hb).symm
    · subst hs0
      simp only [if_neg (not_lt.mpr hle), if_neg (lt_irrefl 0)] at hb
      exact (Option.some.inj hb).symm

theorem claim2_witness :
    rscbb.target_slot agentA prim50 12 hist12c 0 = some (0, 50, 100) ∧
    rscbb.bid agentA prim50 12 hist12c 0 = some 100 ∧
    (100 : ℚ) = agentA.value :=
  ⟨eval_ts12c50, eval_bid12c50,
    claim2_boundary_branches_bid_value agentA prim50 12 hist12c 0 0 50 100 100
      eval_ts12c50 eval_bid12c50
      (Or.inr ⟨rfl, by norm_num [agentA]⟩)⟩

/-- C4: during the cool-down epoch 12 < t < 35 the budget-pacing bid, when
it returns, is exactly 10 (epsilon), regardless of the competitor bids
recorded in round t-1. -/
theorem claim4_cooldown_bid_epsilon (a : Agent) (brfs : BidRangePrim)
    (t : ℤ) (h : History) (reserve : ℚ) (b : ℚ) (h1 : 12 < t) (h2 : t < 35)
    (hb : rscbudget.bid a brfs t h reserve = some b) : b = 10 := by
  rw [rscbudget.bid] at hb
  cases hr : History.round h (t - 1) with
  | none => rw [hr] at hb; simp at hb
  | some prev =>
    rw [hr] at hb
    cases htg : rscbudget.target_slot a brfs t h reserve with
    | none => rw [htg] at hb; simp at hb
    | some tri =>
      rw [htg] at hb
      have hcool : 12 < t ∧ t < 35 := ⟨h1, h2⟩
      simp only [rscbudget.pace_bid, if_pos hcool, rscbudget.epsilon] at hb
      exact (Option.some.inj hb).symm

theorem claim4_witness :
    (12 < (24 : ℤ) ∧ (24 : ℤ) < 35 ∧
      rscbudget.bid agentA prim50 24 hist24 0 = some 10) ∧
    (10 : ℚ) = 10 :=
  ⟨⟨by norm_num, by norm_num, eval_budgetbid24⟩,
    claim4_cooldown_bid_epsilon agentA prim50 24 hist24 0 10 (by norm_num)
      (by norm_num) eval_budgetbid24⟩

/-- C6: for every round t whose round t-1 is available, expected_utils
returns exactly one utility per competitor of round t-1 (own bid excluded),
with utilities[i] = c_1_t(t) * 0.75 ^ i * (value - price[i]) where the
prices are the competitor bid amounts sorted descending (price[i] is the
i-th largest); utilities are given by the exact formula, so negative values
are kept and never clamped. -/
theorem claim6_expected_utils_spec (a : Agent) (t : ℤ) (h : History)
    (reserve : ℚ) (prev : AuctionRound) (us : List ℚ)
    (hprev : History.round h (t - 1) = some prev)
    (hus : rscbb.expected_utils a t h reserve = some us) :
    ∃ prices : List ℚ,
      prices.Perm (((prev.bids.filter fun bt => decide (bt.1 ≠ a.id)).map
        Prod.snd)) ∧
      prices.Sorted (· ≥ ·) ∧
      us.length = (prev.bids.filter fun bt => decide (bt.1 ≠ a.id)).length ∧
      ∀ i, i < us.length →
        us.getD i 0 =
          (c_1_t t : ℚ) * (3 / 4) ^ i * (a.value - prices.getD i 0) := by
  rw [rscbb.expected_utils, hprev] at hus
  simp only [Option.map_some', Option.some.injEq] at hus
  subst hus
  refine ⟨(List.insertionSort byBidDesc
    (prev.bids.filter fun bt => decide (bt.1 ≠ a.id))).map Prod.snd,
    ?_, ?_, ?_, ?_⟩
  · exact (List.perm_insertionSort byBidDesc _).map Prod.snd
  · exact List.pairwise_map.mpr
      ((List.sorted_insertionSort byBidDesc _).imp fun hab => hab)
  · simp [(List.perm_insertionSort byBidDesc
      (prev.bids.filter fun bt => decide (bt.1 ≠ a.id))).length_eq]
  · intro i hi
    simp only [List.length_map, List.length_range] at hi
    have hlen : i < ((List.range ((List.insertionSort byBidDesc
        (prev.bids.filter fun bt => decide (bt.1 ≠ a.id))).map
        Prod.snd).length).map fun i =>
        (rscbb.compute_position_effects t ((List.insertionSort byBidDesc
          (prev.bids.filter fun bt => decide (bt.1 ≠ a.id))).map
          Prod.snd).length).getD i 0 *
        (a.value - ((List.insertionSort byBidDesc
          (prev.bids.filter fun bt => decide (bt.1 ≠ a.id))).map
          Prod.snd).getD i 0)).length := by
      simpa using hi
    rw [List.getD_eq_getElem _ _ hlen]
    simp only [List.getElem_map, List.getElem_range]
    rw [rscbb.compute_position_effects_getD t (by simpa using hi)]

/-- C8: both policies fail and return no bid when round t-1 does not exist
(in particular at t = 0), and when round t-1 exists but records no
competitor bids, target selection over the empty utility list fails fast and
both bids return nothing rather than an arbitrary value. -/
theorem claim8_error_handling (a : Agent) (brfs : BidRangePrim) (h : History)
    (reserve : ℚ) :
    (∀ t : ℤ, History.round h (t - 1) = none →
      rscbb.bid a brfs t h reserve = none ∧
      rscbudget.bid a brfs t h reserve = none) ∧
    (rscbb.bid a brfs 0 h reserve = none ∧
      rscbudget.bid a brfs 0 h reserve = none) ∧
    ∀ (t : ℤ) (prev : AuctionRound),
      History.round h (t - 1) = some prev →
      prev.bids.filter (fun bt => decide (bt.1 ≠ a.id)) = [] →
      rscbb.bid a brfs t h reserve = none ∧
      rscbudget.bid a brfs t h reserve = none := by
  have hmiss : ∀ t : ℤ, History.round h (t - 1) = none →
      rscbb.bid a brfs t h reserve = none ∧
      rscbudget.bid a brfs t h reserve = none := by
    intro t hnone
    constructor
    · rw [rscbb.bid, hnone]
    · rw [rscbudget.bid, hnone]
  refine ⟨hmiss, ?_, ?_⟩
  · refine hmiss 0 ?_
    rw [History.round, if_neg]
    norm_num
  · intro t prev hprev hfil
    have hus : rscbb.expected_utils a t h reserve = some [] := by
      rw [rscbb.expected_utils, hprev]
      simp only [Option.map_some', Option.some.injEq]
      rw [hfil]
      simp
    have htg : rscbb.target_slot a brfs t h reserve = none := by
      rw [rscbb.target_slot]
      simp [hus, argmax_index_nil]
    have htg' : rscbudget.target_slot a brfs t h reserve = none := htg
    constructor
    · rw [rscbb.bid, hprev, htg]
    · rw [rscbudget.bid, hprev, htg']

theorem claim8_witness :
    ((History.round hist0 (5 - 1) = none ∧
      rscbb.bid agentA prim50 5 hist0 0 = none ∧
      rscbudget.bid agentA prim50 5 hist0 0 = none) ∧
     (rscbb.bid agentA prim50 0 hist0 0 = none ∧
      rscbudget.bid agentA prim50 0 hist0 0 = none) ∧
     (History.round hist0 (1 - 1) = some ⟨[(0, 55)], [10]⟩ ∧
      (⟨[(0, 55)], [10]⟩ : AuctionRound).bids.filter
        (fun bt => decide (bt.1 ≠ agentA.id)) = [] ∧
      rscbb.bid agentA prim50 1 hist0 0 = none ∧
      rscbudget.bid agentA prim50 1 hist0 0 = none)) := by
  have hprev : History.round hist0 (1 - 1) = some ⟨[(0, 55)], [10]⟩ := by
    simp [History.round, hist0]
  have hfil : (⟨[(0, 55)], [10]⟩ : AuctionRound).bids.filter
      (fun bt => decide (bt.1 ≠ agentA.id)) = [] := by
    simp [agentA]
  have hmiss4 : History.round hist0 (5 - 1) = none := by
    simp [History.round, hist0]
  have hmain := claim8_error_handling agentA prim50 hist0 0
  have hpartm := hmain.1 5 hmiss4
  have hpart2 := hmain.2.2 1 ⟨[(0, 55)], [10]⟩ hprev hfil
  exact ⟨⟨hmiss4, hpartm.1, hpartm.2⟩, hmain.2.1, hprev, hfil,
    hpart2.1, hpart2.2⟩

theorem claim6_witness :
    (History.round hist12a (12 - 1) = some ⟨[(1, 100), (2, 40)], [10, 5]⟩ ∧
     rscbb.expected_utils agentA 12 hist12a 0 = some [0, 2250]) ∧
    ∃ prices : List ℚ,
      prices.Perm ((((⟨[(1, 100), (2, 40)], [10, 5]⟩ : AuctionRound).bids.filter
        fun bt => decide (bt.1 ≠ agentA.id)).map Prod.snd)) ∧
      prices.Sorted (· ≥ ·) ∧
      ([0, 2250] : List ℚ).length =
        ((⟨[(1, 100), (2, 40)], [10, 5]⟩ : AuctionRound).bids.filter
          fun bt => decide (bt.1 ≠ agentA.id)).length ∧
      ∀ i, i < ([0, 2250] : List ℚ).length →
        ([0, 2250] : List ℚ).getD i 0 =
          (c_1_t 12 : ℚ) * (3 / 4) ^ i * (agentA.value - prices.getD i 0) := by
  have hprev : History.round hist12a (12 - 1) =
      some ⟨[(1, 100), (2, 40)], [10, 5]⟩ := by
    rw [show (12 : ℤ) - 1 = 11 by norm_num]
    exact hist12a_round
  exact ⟨⟨hprev, eval_eu12a⟩,
    claim6_expected_utils_spec agentA 12 hist12a 0 _ _ hprev eval_eu12a⟩

theorem rscbb.effect_ratio (t : ℤ) (slot : ℕ) (hs : 0 < slot) :
    (rscbb.compute_position_effects t (slot + 1)).getD slot 0 /
      (rscbb.compute_position_effects t (slot + 1)).getD (slot - 1) 0 =
      3 / 4 := by
  rw [rscbb.compute_position_effects_getD t (by omega),
    rscbb.compute_position_effects_getD t (by omega)]
  obtain ⟨k, rfl⟩ : ∃ k, slot = k + 1 := ⟨slot - 1, by omega⟩
  have hc0 : (c_1_t t : ℚ) ≠ 0 := by
    have := c_1_t_pos t
    exact_mod_cast this.ne'
  have hp0 : ((3 : ℚ) / 4) ^ k ≠ 0 := by positivity
  rw [show k + 1 - 1 = k from rfl, pow_succ]
  field_simp
  ring

/-- C1 (amended): for every round t ≥ 1 where the targeted slot s is
positive and its min bid is at most the value, the balanced bid equals
value - (effect[s] / effect[s-1]) * (value - minBid); the effect ratio
always equals 3/4, hence lies in (0, 1), and the returned bid lies strictly
between minBid and value whenever in addition minBid < value (when
minBid = value the bid equals value, and the open interval is empty). -/
theorem claim1_balanced_bid_formula (a : Agent) (brfs : BidRangePrim)
    (t : ℤ) (h : History) (reserve : ℚ) (slot : ℕ) (min_bid max_bid b : ℚ)
    (ht : 1 ≤ t)
    (htgt : rscbb.target_slot a brfs t h reserve = some (slot, min_bid, max_bid))
    (hb : rscbb.bid a brfs t h reserve = some b)
    (hs : 0 < slot) (hle : min_bid ≤ a.value) :
    b = a.value -
        ((rscbb.compute_position_effects t (slot + 1)).getD slot 0 /
          (rscbb.compute_position_effects t (slot + 1)).getD (slot - 1) 0) *
        (a.value - min_bid) ∧
    (rscbb.compute_position_effects t (slot + 1)).getD slot 0 /
        (rscbb.compute_position_effects t (slot + 1)).getD (slot - 1) 0 =
      3 / 4 ∧
    (min_bid < a.value → min_bid < b ∧ b < a.value) := by
  rw [rscbb.bid] at hb
  cases hr : History.round h (t - 1) with
  | none => rw [hr] at hb; simp at hb
  | some prev =>
    rw [hr, htgt] at hb
    simp only [if_neg (not_lt.mpr hle), if_pos hs] at hb
    have hbv := (Option.some.inj hb).symm
    refine ⟨hbv, rscbb.effect_ratio t slot hs, ?_⟩
    rw [rscbb.effect_ratio t slot hs] at hbv
    intro hlt
    constructor <;> [skip; skip] <;> rw [hbv] <;> linarith

theorem claim1_counterexample :
    rscbb.target_slot agentA prim100 12 hist12a 0 = some (1, 100, 200) ∧
    (100 : ℚ) ≤ agentA.value ∧
    (rscbb.compute_position_effects 12 (1 + 1)).getD 1 0 /
        (rscbb.compute_position_effects 12 (1 + 1)).getD (1 - 1) 0 = 3 / 4 ∧
    rscbb.bid agentA prim100 12 hist12a 0 = some 100 ∧
    ¬((100 : ℚ) < 100 ∧ (100 : ℚ) < agentA.value) := by
  refine ⟨eval_ts12a100, by norm_num [agentA],
    rscbb.effect_ratio 12 1 one_pos, eval_bid12a100, ?_⟩
  intro hcon
  exact absurd hcon.1 (lt_irrefl _)

theorem claim1_witness :
    ((1 : ℤ) ≤ 12 ∧
     rscbb.target_slot agentA prim60 12 hist12a 0 = some (1, 60, 120) ∧
     rscbb.bid agentA prim60 12 hist12a 0 = some 70 ∧
     0 < 1 ∧ (60 : ℚ) ≤ agentA.value) ∧
    ((70 : ℚ) = agentA.value -
        ((rscbb.compute_position_effects 12 (1 + 1)).getD 1 0 /
          (rscbb.compute_position_effects 12 (1 + 1)).getD (1 - 1) 0) *
        (agentA.value - 60) ∧
     (rscbb.compute_position_effects 12 (1 + 1)).getD 1 0 /
        (rscbb.compute_position_effects 12 (1 + 1)).getD (1 - 1) 0 = 3 / 4 ∧
     ((60 : ℚ) < agentA.value → (60 : ℚ) < 70 ∧ (70 : ℚ) < agentA.value)) := by
  refine ⟨⟨by norm_num, eval_ts12a60, eval_bid12a60, one_pos,
    by norm_num [agentA]⟩, ?_⟩
  exact claim1_balanced_bid_formula agentA prim60 12 hist12a 0 1 60 120 70
    (by norm_num) eval_ts12a60 eval_bid12a60 one_pos (by norm_num [agentA])

theorem claim3_counterexample :
    rscbudget.bid agentA prim50 1 hist1 0 = some (135 / 2) ∧
    (135 : ℚ) / 2 ≠ 75 / 2 ∧
    rscbudget.optimal_index [(1, 30), (2, 45), (3, 90)] ≠ some 1 :=
  ⟨eval_budgetbid1, by norm_num, by rw [eval_opt1]; simp⟩

/-- C3 (amended): for ascending competitor bids [30, 45, 90] at round t = 1
with alpha = 40, the optimal-index scan resolves to the topmost entry 90
(index 2: the final loop iteration tests only bid > alpha and overwrites any
earlier match, and 45 does not qualify earlier because the next-higher bid
90 is not below 2 * alpha), and the returned bid is the midpoint between 90
and 45, i.e. 67.5. -/
theorem claim3_scan_topmost :
    rscbudget.optimal_index [(1, 30), (2, 45), (3, 90)] = some 2 ∧
    (([(1, 30), (2, 45), (3, 90)] : List (ℤ × ℚ)).getD 2 (0, 0)).2 = 90 ∧
    rscbudget.bid agentA prim50 1 hist1 0 = some (135 / 2) :=
  ⟨eval_opt1, by simp, eval_budgetbid1⟩

theorem claim5_counterexample :
    rscbb.expected_utils agentA 12 hist12b 0 = some [0, 2250] ∧
    argmax_index [0, 2250] = some 1 ∧
    rscbb.slot_info agentA prim100 12 hist12b 0 = some [(0, 100, 200)] ∧
    ¬(1 < min ([(0, 100, 200)] : List (ℕ × ℚ × ℚ)).length
        ([0, 2250] : List ℚ).length) ∧
    rscbb.target_slot agentA prim100 12 hist12b 0 = none := by
  refine ⟨eval_eu12b, eval_amax2, eval_si12b100, by norm_num, ?_⟩
  simp [rscbb.target_slot, eval_eu12b, eval_amax2, eval_si12b100]

/-- C5 (amended): whenever target_slot returns a triple, it is the
slot-range entry at the index of the first occurrence of the maximum
utility, and that index lies below both list lengths; but the
first-occurrence argmax index is only guaranteed to lie in
[0, len(utilities)), and when it reaches past the slot-range list (possible
when the competitor count exceeds the slot count) the lookup is out of
bounds and target_slot fails instead of returning a triple. -/
theorem claim5_target_slot_characterization (a : Agent) (brfs : BidRangePrim)
    (t : ℤ) (h : History) (reserve : ℚ) (tri : ℕ × ℚ × ℚ)
    (htgt : rscbb.target_slot a brfs t h reserve = some tri) :
    ∃ (us : List ℚ) (info : List (ℕ × ℚ × ℚ)) (i : ℕ),
      rscbb.expected_utils a t h reserve = some us ∧
      rscbb.slot_info a brfs t h reserve = some info ∧
      argmax_index us = some i ∧
      i < us.length ∧ i < info.length ∧ info.get? i = some tri ∧
      (∀ j, j < us.length → us.getD j 0 ≤ us.getD i 0) ∧
      (∀ j, j < i → us.getD j 0 < us.getD i 0) := by
  rw [rscbb.target_slot] at htgt
  cases hus : rscbb.expected_utils a t h reserve with
  | none => rw [hus] at htgt; simp at htgt
  | some us =>
    rw [hus] at htgt
    simp only [] at htgt
    cases hi : argmax_index us with
    | none => rw [hi] at htgt; simp at htgt
    | some i =>
      rw [hi] at htgt
      simp only [] at htgt
      cases hsi : rscbb.slot_info a brfs t h reserve with
      | none => rw [hsi] at htgt; simp at htgt
      | some info =>
        rw [hsi] at htgt
        simp only [] at htgt
        have hilen : i < info.length := by
          by_contra hcon
          rw [List.get?_eq_none.mpr (by omega)] at htgt
          simp at htgt
        exact ⟨us, info, i, rfl, rfl, hi, argmax_index_lt_length hi, hilen,
          htgt, argmax_index_is_max hi, argmax_index_first hi⟩

theorem claim5_witness :
    rscbb.target_slot agentA prim100 12 hist12a 0 = some (1, 100, 200) ∧
    ∃ (us : List ℚ) (info : List (ℕ × ℚ × ℚ)) (i : ℕ),
      rscbb.expected_utils agentA 12 hist12a 0 = some us ∧
      rscbb.slot_info agentA prim100 12 hist12a 0 = some info ∧
      argmax_index us = some i ∧
      i < us.length ∧ i < info.length ∧ info.get? i = some (1, 100, 200) ∧
      (∀ j, j < us.length → us.getD j 0 ≤ us.getD i 0) ∧
      (∀ j, j < i → us.getD j 0 < us.getD i 0) :=
  ⟨eval_ts12a100, claim5_target_slot_characterization agentA prim100 12
    hist12a 0 (1, 100, 200) eval_ts12a100⟩
